import Mathlib

/-!
Verification development for the JARVIS voice-assistant core
(`jarvis.py`): the input sanitizer (`SecurityManager.sanitize_input`),
the policy validator (`SecurityManager.validate_command`), the sandboxed
executor (`CommandProcessor.execute_command`) and the wake-word /
intent-dispatch routine (`JARVIS.process_command`).

Strings are modelled as `List Char`.  Python string primitives used by
the code (`str.strip`, `str.lower`, `str.split`, `str.replace`,
substring containment `in`, `str.startswith`) are given executable
models below; all recursions are structural so that concrete instances
evaluate by `decide`.
-/

/-- Convert a Lean string literal to the `List Char` representation used
throughout this development. -/
def cs (s : String) : List Char := s.toList

/-- Python whitespace for `str.strip` / `str.split` (the six ASCII
whitespace characters; the development only ever strips ASCII text). -/
def isPySpace (c : Char) : Bool :=
  (c = ' ') || (c = '\t') || (c = '\n') || (c = '\r') ||
  (c = Char.ofNat 11) || (c = Char.ofNat 12)

/-- Python `str.strip()`: drop whitespace from both ends. -/
def pyStrip (s : List Char) : List Char :=
  ((s.dropWhile isPySpace).reverse.dropWhile isPySpace).reverse

/-- Python `str.lower()` (ASCII case mapping). -/
def toLowerList (s : List Char) : List Char := s.map Char.toLower

/-- Boolean prefix test: Python `str.startswith`. -/
def isPrefixB : List Char → List Char → Bool
  | [], _ => true
  | _ :: _, [] => false
  | a :: as, b :: bs => (a = b) && isPrefixB as bs

/-- Boolean substring test: Python `pat in s` on strings. -/
def isInfixB (pat : List Char) : List Char → Bool
  | [] => isPrefixB pat []
  | c :: rest => isPrefixB pat (c :: rest) || isInfixB pat rest

/-- Worker for `pySplit`, accumulating the current token reversed. -/
def pySplitGo (cur : List Char) : List Char → List (List Char)
  | [] => if cur = [] then [] else [cur.reverse]
  | c :: rest =>
    if isPySpace c then
      if cur = [] then pySplitGo [] rest
      else cur.reverse :: pySplitGo [] rest
    else pySplitGo (c :: cur) rest

/-- Python `str.split()` with no argument: split on runs of whitespace,
discarding empty tokens. -/
def pySplit (s : List Char) : List (List Char) := pySplitGo [] s

/-- `command.split()[0] if command.split() else ""` from
`validate_command`: the first whitespace-delimited token, or the empty
string when there is none. -/
def baseToken (s : List Char) : List Char :=
  match pySplit s with
  | [] => []
  | t :: _ => t

/-- The `dangerous_chars` list of `SecurityManager.sanitize_input`
(`';', '&', '|', backquote, '$', '(', ')', '<', '>'`). -/
def dangerous_chars : List Char :=
  [';', '&', '|', Char.ofNat 96, '$', '(', ')', '<', '>']

/-- `SecurityManager.sanitize_input`: successively delete every
occurrence of each dangerous character (`str.replace(ch, '')` for a
single character deletes each of its occurrences, i.e. filters it out),
then strip surrounding whitespace. -/
def sanitize_input (user_input : List Char) : List Char :=
  pyStrip (dangerous_chars.foldl (fun acc c => acc.filter (fun x => x != c)) user_input)

/-- The security policy (`security_config`): allow-list of base
commands, deny-list of substring patterns, execution-time and
output-size bounds. -/
structure Policy where
  allowed_commands : List (List Char)
  forbidden_patterns : List (List Char)
  max_execution_time : Nat
  max_output_size : Nat

/-- `SecurityManager.validate_command`: strip and lowercase the command,
reject when any forbidden pattern occurs as a substring, then accept iff
the first whitespace token (empty string when there is none) is a member
of the allow-list. -/
def validate_command (P : Policy) (command : List Char) : Bool :=
  let cmd := toLowerList (pyStrip command)
  if P.forbidden_patterns.any (fun pat => isInfixB pat cmd) then
    false
  else if !(P.allowed_commands.contains (baseToken cmd)) then
    false
  else
    true

/-- The default `security_config` of `JARVISConfig.load_security_config`. -/
def defaultPolicy : Policy where
  allowed_commands :=
    [cs "ls", cs "pwd", cs "cat", cs "head", cs "tail", cs "grep", cs "find", cs "wc",
     cs "ps", cs "top", cs "df", cs "free", cs "uptime", cs "uname", cs "whoami",
     cs "ping", cs "curl", cs "wget", cs "traceroute",
     cs "git", cs "python3", cs "pip3", cs "node", cs "npm"]
  forbidden_patterns :=
    [cs "sudo", cs "su", cs "chmod 777", cs "rm -rf", cs "mkfs", cs "fdisk",
     cs "passwd", cs "useradd", cs "userdel", cs "systemctl", cs "service"]
  max_execution_time := 30
  max_output_size := 10000

/-- A policy whose deny-list entry carries an uppercase letter, showing
that the deny check is not case-insensitive in the pattern. -/
def upperPatternPolicy : Policy where
  allowed_commands := [cs "rm"]
  forbidden_patterns := [cs "RM"]
  max_execution_time := 30
  max_output_size := 10000

/-- A policy whose allow-list contains the empty string. -/
def emptyAllowedPolicy : Policy where
  allowed_commands := [[]]
  forbidden_patterns := []
  max_execution_time := 30
  max_output_size := 10000

/-- Worker for `pyReplaceAll`, structural on a fuel bounded by the
length of the scanned string (each step consumes at least one
character, so `s.length` fuel always suffices for a nonempty pattern). -/
def replaceAllFuel (pat : List Char) : Nat → List Char → List Char
  | 0, s => s
  | _ + 1, [] => []
  | fuel + 1, c :: rest =>
    if isPrefixB pat (c :: rest) then
      replaceAllFuel pat fuel (List.drop (pat.length - 1) rest)
    else
      c :: replaceAllFuel pat fuel rest

/-- Python `s.replace(pat, "")`: delete the non-overlapping occurrences
of `pat`, scanning left to right (the identity when `pat` is empty, as
replacing the empty string by the empty string is). -/
def pyReplaceAll (s pat : List Char) : List Char :=
  if pat = [] then s else replaceAllFuel pat s.length s

/-- Modelled from the spec: removal of exactly the first occurrence of
the wake-word substring ("Remove the first occurrence of the wake word
substring from the utterance"), written only to compare the spec's
wording with the code's `str.replace`, which removes every occurrence. -/
def removeFirstOccurrence (pat : List Char) : List Char → List Char
  | [] => []
  | c :: rest =>
    if isPrefixB pat (c :: rest) && !(pat.isEmpty) then
      List.drop (pat.length - 1) rest
    else
      c :: removeFirstOccurrence pat rest

/-- Outcome of the `subprocess.run` call in
`CommandProcessor.execute_command`, abstracted as an oracle: the process
completed with an exit code and captured streams, raised
`TimeoutExpired`, raised `FileNotFoundError`, or raised any other
OS-level exception carrying a message. -/
inductive LaunchOutcome where
  | completed (returncode : Int) (stdout stderr : List Char)
  | timedOut
  | fileNotFound
  | osError (msg : List Char)
deriving DecidableEq

/-- The result dictionary of `CommandProcessor.execute_command`; an
`Option` field models the presence or absence of the corresponding key
(`message` is absent on the completed path, `error` and `return_code`
are absent on every error path). -/
structure ExecResult where
  status : List Char
  message : Option (List Char)
  output : List Char
  error : Option (List Char)
  return_code : Option Int
deriving DecidableEq

/-- The `"\n... (output truncated)"` literal appended on truncation. -/
def truncation_marker : List Char := cs "\n... (output truncated)"

/-- The dictionary returned when `validate_command` rejects the
sanitized command. -/
def blockedResult : ExecResult :=
  ⟨cs "error", some (cs "Command not allowed for security reasons"), [], none, none⟩

/-- The dictionary returned on `subprocess.TimeoutExpired`. -/
def timedOutResult : ExecResult :=
  ⟨cs "error", some (cs "Command timed out"), [], none, none⟩

/-- The dictionary returned on `FileNotFoundError`. -/
def notFoundResult : ExecResult :=
  ⟨cs "error", some (cs "Command not found"), [], none, none⟩

/-- The dictionary returned on any other exception `e`, with `str(e)`. -/
def runtimeErrorResult (msg : List Char) : ExecResult :=
  ⟨cs "error", some msg, [], none, none⟩

/-- `CommandProcessor.execute_command`: sanitize, validate (returning
the blocked dictionary on rejection), then run `command.split()` through
the launch oracle; on completion strip both streams, truncate stdout at
`max_output_size` appending the marker, and report
`"success"`/`"error"` by the exit code together with the exit code and
stderr; each exception path returns its fixed dictionary. -/
def execute_command (P : Policy) (command : List Char)
    (launch : List (List Char) → LaunchOutcome) : ExecResult :=
  let command := sanitize_input command
  if !(validate_command P command) then
    blockedResult
  else
    match launch (pySplit command) with
    | .completed rc out err =>
      let output := pyStrip out
      let error := pyStrip err
      let output :=
        if P.max_output_size < output.length then
          output.take P.max_output_size ++ truncation_marker
        else output
      ⟨if rc = 0 then cs "success" else cs "error", none, output, some error, some rc⟩
    | .timedOut => timedOutResult
    | .fileNotFound => notFoundResult
    | .osError msg => runtimeErrorResult msg

/-- The fixed intent alternatives of `JARVIS.process_command`, in the
order its conditional cascade tests them. -/
inductive Intent where
  | farewell
  | greeting
  | timeQuery
  | dateQuery
  | systemInfo
  | systemCommand
  | webSearch
  | wikipedia
  | help
  | unknown
deriving DecidableEq

/-- The ordered conditional cascade of `JARVIS.process_command`
classifying a wake-word-stripped command body, first match wins:
keyword containment for farewell/greeting/time/date/system-info,
`startswith` for run/search/wiki families, keyword containment for
help, else unknown. -/
def classify (command : List Char) : Intent :=
  if [cs "goodbye", cs "exit", cs "quit", cs "shutdown", cs "power down"].any
      (fun w => isInfixB w command) then .farewell
  else if [cs "hello", cs "hi", cs "good morning", cs "good evening", cs "how are you"].any
      (fun w => isInfixB w command) then .greeting
  else if isInfixB (cs "time") command then .timeQuery
  else if isInfixB (cs "date") command then .dateQuery
  else if [cs "system status", cs "system info", cs "show stats"].any
      (fun w => isInfixB w command) then .systemInfo
  else if [cs "run ", cs "execute ", cs "command "].any
      (fun p => isPrefixB p command) then .systemCommand
  else if [cs "search ", cs "google ", cs "look up "].any
      (fun p => isPrefixB p command) then .webSearch
  else if ([cs "wiki ", cs "wikipedia "].any (fun p => isPrefixB p command)
      || isInfixB (cs "tell me about") command) then .wikipedia
  else if [cs "help", cs "what can you do", cs "commands"].any
      (fun w => isInfixB w command) then .help
  else .unknown

/-- The boolean each intent handler returns to `process_command`:
`handle_goodbye` returns `False`, every other handler returns `True`. -/
def handler_returns : Intent → Bool
  | .farewell => false
  | _ => true

/-- Observable outcome of one `JARVIS.process_command` call:
the returned continuation boolean, the handler dispatched (none when
the utterance was discarded, in which case no response is emitted
either, since only handlers emit responses), and the command body the
handler received. -/
structure ProcessOutcome where
  continue_flag : Bool
  dispatched : Option Intent
  body : Option (List Char)
deriving DecidableEq

/-- `JARVIS.process_command`: an empty utterance returns `True`
immediately; an utterance not containing the wake word as an exact
substring returns `True` with no dispatch; otherwise every occurrence
of the wake word is deleted (`str.replace`), the remainder stripped,
classified, and the matching handler's boolean returned. -/
def process_command (wake_word : List Char) (command : List Char) : ProcessOutcome :=
  if command = [] then
    ⟨true, none, none⟩
  else if isInfixB wake_word command then
    let body := pyStrip (pyReplaceAll command wake_word)
    let i := classify body
    ⟨handler_returns i, some i, some body⟩
  else
    ⟨true, none, none⟩

/-! ### Helper lemmas about `pyStrip` and character filtering -/

lemma head?_dropWhile_false {p : Char → Bool} {l : List Char} {c : Char}
    (h : (l.dropWhile p).head? = some c) : p c = false := by
  have hm := List.head?_dropWhile_not p l
  rw [h] at hm
  exact hm

lemma dropWhile_eq_self_of_head {p : Char → Bool} {l : List Char}
    (h : ∀ c, l.head? = some c → p c = false) : l.dropWhile p = l := by
  cases l with
  | nil => rfl
  | cons a t =>
    have ha : p a = false := h a rfl
    exact List.dropWhile_cons_of_neg (by simp [ha])

lemma getLast?_dropWhile_of_ne_nil {p : Char → Bool} {l : List Char}
    (h : l.dropWhile p ≠ []) : (l.dropWhile p).getLast? = l.getLast? := by
  induction l with
  | nil => simp at h
  | cons a t ih =>
    by_cases hp : p a
    · rw [List.dropWhile_cons_of_pos hp] at h ⊢
      have ht : t ≠ [] := by
        intro he
        subst he
        simp at h
      rw [ih h]
      cases t with
      | nil => exact absurd rfl ht
      | cons b u => simp
    · rw [List.dropWhile_cons_of_neg hp]

lemma head?_pyStrip {l : List Char} {c : Char} (h : (pyStrip l).head? = some c) :
    isPySpace c = false := by
  unfold pyStrip at h
  rw [List.head?_reverse] at h
  have hne : ((l.dropWhile isPySpace).reverse.dropWhile isPySpace) ≠ [] := by
    intro he
    rw [he] at h
    simp at h
  rw [getLast?_dropWhile_of_ne_nil hne, List.getLast?_reverse] at h
  exact head?_dropWhile_false h

lemma getLast?_pyStrip {l : List Char} {c : Char} (h : (pyStrip l).getLast? = some c) :
    isPySpace c = false := by
  unfold pyStrip at h
  rw [List.getLast?_reverse] at h
  exact head?_dropWhile_false h

lemma mem_pyStrip {l : List Char} {c : Char} (h : c ∈ pyStrip l) : c ∈ l := by
  unfold pyStrip at h
  rw [List.mem_reverse] at h
  have h1 : c ∈ (l.dropWhile isPySpace).reverse := (List.dropWhile_sublist _).subset h
  rw [List.mem_reverse] at h1
  exact (List.dropWhile_sublist _).subset h1

lemma pyStrip_pyStrip (l : List Char) : pyStrip (pyStrip l) = pyStrip l := by
  have h1 : (pyStrip l).dropWhile isPySpace = pyStrip l :=
    dropWhile_eq_self_of_head (fun c hc => head?_pyStrip hc)
  have h2 : (pyStrip l).reverse.dropWhile isPySpace = (pyStrip l).reverse :=
    dropWhile_eq_self_of_head (fun c hc => by
      rw [List.head?_reverse] at hc
      exact getLast?_pyStrip hc)
  show (((pyStrip l).dropWhile isPySpace).reverse.dropWhile isPySpace).reverse = pyStrip l
  rw [h1, h2, List.reverse_reverse]

lemma foldl_filter_eq (ds : List Char) (s : List Char) :
    ds.foldl (fun acc c => acc.filter (fun x => x != c)) s
      = s.filter (fun x => !(ds.contains x)) := by
  induction ds generalizing s with
  | nil => simp
  | cons d rest ih =>
    rw [List.foldl_cons, ih, List.filter_filter]
    apply List.filter_congr
    intro a _
    by_cases hd : a = d <;> by_cases hr : a ∈ rest <;> simp [hd, hr]

lemma sanitize_eq_filter (s : List Char) :
    sanitize_input s = pyStrip (s.filter (fun x => !(dangerous_chars.contains x))) := by
  unfold sanitize_input
  rw [foldl_filter_eq]

/-! ### C5 and C6: the sanitizer -/

/-- C5: `sanitize_input` equals filtering out the nine dangerous
characters (so every other character of the input is preserved verbatim
and in order) followed by whitespace trimming; its output contains no
dangerous character and carries no leading or trailing whitespace.  It
is a total Lean function, so it never fails. -/
theorem sanitize_removes_metachars (s : List Char) :
    sanitize_input s = pyStrip (s.filter (fun c => !(dangerous_chars.contains c))) ∧
    (∀ c ∈ sanitize_input s, c ∉ dangerous_chars) ∧
    (∀ c, (sanitize_input s).head? = some c → isPySpace c = false) ∧
    (∀ c, (sanitize_input s).getLast? = some c → isPySpace c = false) := by
  refine ⟨sanitize_eq_filter s, ?_, ?_, ?_⟩
  · intro c hc hmem
    rw [sanitize_eq_filter] at hc
    have h1 := mem_pyStrip hc
    have h2 := List.of_mem_filter h1
    simp at h2
    exact h2 hmem
  · intro c hc
    rw [sanitize_eq_filter] at hc
    exact head?_pyStrip hc
  · intro c hc
    rw [sanitize_eq_filter] at hc
    exact getLast?_pyStrip hc

/-- Explicit instance of `sanitize_removes_metachars`: the semicolon
never survives sanitization of `" ls; cat"`. -/
theorem sanitize_removes_metachars_witness :
    ';' ∉ sanitize_input (cs " ls; cat") := fun h =>
  (sanitize_removes_metachars (cs " ls; cat")).2.1 ';' h (by decide)

/-- C6: the sanitizer is idempotent. -/
theorem sanitize_idempotent (s : List Char) :
    sanitize_input (sanitize_input s) = sanitize_input s := by
  rw [sanitize_eq_filter (sanitize_input s)]
  have hfes : (sanitize_input s).filter (fun x => !(dangerous_chars.contains x))
      = sanitize_input s := by
    rw [List.filter_eq_self]
    intro a ha
    rw [sanitize_eq_filter] at ha
    exact List.of_mem_filter (p := fun x => !(dangerous_chars.contains x)) (mem_pyStrip ha)
  rw [hfes, sanitize_eq_filter]
  exact pyStrip_pyStrip _

/-! ### C1 and C2: the policy validator -/

lemma contains_iff_mem (l : List (List Char)) (a : List Char) :
    l.contains a = true ↔ a ∈ l := by
  simp [List.contains]

lemma validate_eq_bool (P : Policy) (command : List Char) :
    validate_command P command
      = (!(P.forbidden_patterns.any
            (fun pat => isInfixB pat (toLowerList (pyStrip command)))) &&
         P.allowed_commands.contains (baseToken (toLowerList (pyStrip command)))) := by
  unfold validate_command
  cases h1 : P.forbidden_patterns.any (fun pat => isInfixB pat (toLowerList (pyStrip command))) <;>
    cases h2 : P.allowed_commands.contains (baseToken (toLowerList (pyStrip command))) <;>
      simp [h1, h2]
  · simpa using h2
  · simpa using h2

/-- C1 counterexample: the command `"rm x"` contains the forbidden
pattern `"RM"` as a case-insensitive substring, yet `validate_command`
accepts it, because the code lowercases only the command and compares
the pattern verbatim. -/
theorem forbidden_pattern_case_cex :
    cs "RM" ∈ upperPatternPolicy.forbidden_patterns ∧
    isInfixB (toLowerList (cs "RM")) (toLowerList (cs "rm x")) = true ∧
    validate_command upperPatternPolicy (cs "rm x") = true := by decide

/-- C1 amended: whenever some entry of `forbidden_patterns` occurs
verbatim as a substring of the stripped-and-lowercased command (which
is case-insensitive matching exactly when the pattern itself is
lowercase, as every shipped pattern is), `validate_command` returns
false. -/
theorem forbidden_pattern_blocks (P : Policy) (command pat : List Char)
    (hmem : pat ∈ P.forbidden_patterns)
    (hinf : isInfixB pat (toLowerList (pyStrip command)) = true) :
    validate_command P command = false := by
  rw [validate_eq_bool]
  have hany : P.forbidden_patterns.any
      (fun p => isInfixB p (toLowerList (pyStrip command))) = true :=
    List.any_eq_true.mpr ⟨pat, hmem, hinf⟩
  simp [hany]

/-- Explicit instance of `forbidden_pattern_blocks`: `"ls sudo reboot"`
is rejected under the default policy because of the `"sudo"` pattern,
although its base command `ls` is allowed. -/
theorem forbidden_pattern_blocks_witness :
    validate_command defaultPolicy (cs "ls sudo reboot") = false :=
  forbidden_pattern_blocks defaultPolicy (cs "ls sudo reboot") (cs "sudo")
    (by decide) (by decide)

/-- C2 counterexample: a whitespace-only command has no
whitespace-delimited token, yet `validate_command` accepts it when the
empty string is a member of `allowed_commands`, because the code
substitutes the empty string for the missing first token. -/
theorem validate_no_token_cex :
    pySplit (toLowerList (pyStrip (cs "   "))) = [] ∧
    validate_command emptyAllowedPolicy (cs "   ") = true := by decide

/-- C2 amended: `validate_command` returns true iff no forbidden
pattern occurs as a substring of the stripped-and-lowercased command
and the base token — the first whitespace-delimited token, or the
empty string when there is none — is a member of `allowed_commands`;
in particular a command with no tokens is accepted exactly when the
empty string itself is allowed. -/
theorem validate_characterization (P : Policy) (command : List Char) :
    validate_command P command = true ↔
      ((∀ pat ∈ P.forbidden_patterns,
          isInfixB pat (toLowerList (pyStrip command)) = false) ∧
       baseToken (toLowerList (pyStrip command)) ∈ P.allowed_commands) := by
  rw [validate_eq_bool, Bool.and_eq_true, Bool.not_eq_true', List.any_eq_false]
  constructor
  · rintro ⟨h1, h2⟩
    exact ⟨fun pat hmem => by simpa using h1 pat hmem, by simpa using h2⟩
  · rintro ⟨h1, h2⟩
    exact ⟨fun pat hmem => by simpa using h1 pat hmem, by simpa using h2⟩

/-- Explicit instance of `validate_characterization`: `"ls -la"` is
accepted by the default policy. -/
theorem validate_characterization_witness :
    validate_command defaultPolicy (cs "ls -la") = true :=
  (validate_characterization defaultPolicy (cs "ls -la")).mpr (by decide)

/-! ### C3, C4 and C9: the executor -/

/-- C3: `execute_command` is a total function, and for a validated
command its result is determined by the launch outcome: the fixed
timed-out dictionary on `TimeoutExpired`, the fixed not-found
dictionary on `FileNotFoundError`, the runtime-error dictionary
carrying the error text on any other exception, and for a completed
process the status is `"success"` exactly when the exit code is zero
and `"error"` otherwise, carrying the exit code and captured stderr;
the three fixed error dictionaries are pairwise distinct. -/
theorem execute_status_discriminates (P : Policy) (command : List Char)
    (launch : List (List Char) → LaunchOutcome)
    (hv : validate_command P (sanitize_input command) = true) :
    (launch (pySplit (sanitize_input command)) = .timedOut →
        execute_command P command launch = timedOutResult) ∧
    (launch (pySplit (sanitize_input command)) = .fileNotFound →
        execute_command P command launch = notFoundResult) ∧
    (∀ msg, launch (pySplit (sanitize_input command)) = .osError msg →
        execute_command P command launch = runtimeErrorResult msg) ∧
    (∀ rc out err, launch (pySplit (sanitize_input command)) = .completed rc out err →
        ((execute_command P command launch).status = cs "success" ↔ rc = 0) ∧
        ((execute_command P command launch).status = cs "error" ↔ rc ≠ 0) ∧
        (execute_command P command launch).return_code = some rc ∧
        (execute_command P command launch).error = some (pyStrip err)) ∧
    (timedOutResult ≠ notFoundResult ∧ timedOutResult ≠ blockedResult ∧
     notFoundResult ≠ blockedResult) := by
  simp only [execute_command, hv, Bool.not_true, Bool.false_eq_true, if_false]
  refine ⟨fun h => by rw [h], fun h => by rw [h], fun msg h => by rw [h],
    fun rc out err h => ?_, by decide⟩
  rw [h]
  by_cases hrc : rc = 0 <;> simp [hrc] <;> decide

/-- Explicit instance of `execute_status_discriminates`: a validated
`"ls"` whose launch times out yields the timed-out dictionary. -/
theorem execute_status_discriminates_witness :
    execute_command defaultPolicy (cs "ls") (fun _ => LaunchOutcome.timedOut)
      = timedOutResult :=
  (execute_status_discriminates defaultPolicy (cs "ls")
    (fun _ => LaunchOutcome.timedOut) (by decide)).1 rfl

/-- C4: on every path the output field of `execute_command` is at most
`max_output_size` plus the length of the fixed truncation marker; and
for a validated, completed process the marker is appended to the first
`max_output_size` characters exactly when the stripped stdout exceeds
`max_output_size`, the output otherwise being exactly the stripped
stdout (the result records truncation only through the marker: the
returned dictionary has no separate truncated field). -/
theorem output_length_invariant (P : Policy) (command : List Char)
    (launch : List (List Char) → LaunchOutcome) :
    (execute_command P command launch).output.length
        ≤ P.max_output_size + truncation_marker.length ∧
    (∀ rc out err, launch (pySplit (sanitize_input command)) = .completed rc out err →
        validate_command P (sanitize_input command) = true →
        ((P.max_output_size < (pyStrip out).length →
            (execute_command P command launch).output
              = (pyStrip out).take P.max_output_size ++ truncation_marker) ∧
         ((pyStrip out).length ≤ P.max_output_size →
            (execute_command P command launch).output = pyStrip out))) := by
  constructor
  · unfold execute_command
    cases hvv : validate_command P (sanitize_input command) with
    | false => simp [hvv, blockedResult]
    | true =>
      simp only [hvv, Bool.not_true, Bool.false_eq_true, if_false]
      cases hl : launch (pySplit (sanitize_input command)) with
      | completed rc out err =>
        by_cases hlen : P.max_output_size < (pyStrip out).length
        · simp only [hlen, if_true]
          have htake : ((pyStrip out).take P.max_output_size).length ≤ P.max_output_size :=
            le_trans (List.length_take_le _ _) le_rfl
          calc (((pyStrip out).take P.max_output_size) ++ truncation_marker).length
              = ((pyStrip out).take P.max_output_size).length + truncation_marker.length := by
                rw [List.length_append]
            _ ≤ P.max_output_size + truncation_marker.length := by
                exact Nat.add_le_add_right htake _
        · simp only [hlen, if_false]
          exact le_trans (Nat.le_of_not_lt hlen) (Nat.le_add_right _ _)
      | timedOut => simp [timedOutResult]
      | fileNotFound => simp [notFoundResult]
      | osError msg => simp [runtimeErrorResult]
  · intro rc out err h hv
    simp only [execute_command, hv, Bool.not_true, Bool.false_eq_true, if_false, h]
    constructor
    · intro hlen
      simp [hlen]
    · intro hlen
      simp [Nat.not_lt_of_le hlen]

/-- Explicit instance of `output_length_invariant`: a short completed
stdout is passed through stripped and unmarked. -/
theorem output_length_invariant_witness :
    (execute_command defaultPolicy (cs "ls")
        (fun _ => LaunchOutcome.completed 0 (cs " hi ") [])).output = cs "hi" :=
  ((output_length_invariant defaultPolicy (cs "ls")
      (fun _ => LaunchOutcome.completed 0 (cs " hi ") [])).2
    0 (cs " hi ") [] rfl (by decide)).2 (by decide)

/-- C9: a rejected command yields the fixed blocked dictionary whatever
the launch oracle would do (no process is consulted), with empty output
and no exit code; the timed-out and not-found dictionaries likewise
carry empty output and no exit code; and a validated completed process
always contributes its exit code and stripped stderr to the result. -/
theorem execute_result_fields (P : Policy) (command : List Char)
    (launch : List (List Char) → LaunchOutcome) :
    (validate_command P (sanitize_input command) = false →
        ∀ g : List (List Char) → LaunchOutcome,
          execute_command P command g = blockedResult) ∧
    (blockedResult.output = [] ∧ blockedResult.return_code = none) ∧
    (timedOutResult.output = [] ∧ timedOutResult.return_code = none) ∧
    (notFoundResult.output = [] ∧ notFoundResult.return_code = none) ∧
    (∀ rc out err, launch (pySplit (sanitize_input command)) = .completed rc out err →
        validate_command P (sanitize_input command) = true →
        (execute_command P command launch).return_code = some rc ∧
        (execute_command P command launch).error = some (pyStrip err)) := by
  refine ⟨fun hv g => ?_, by decide, by decide, by decide, fun rc out err h hv => ?_⟩
  · simp [execute_command, hv]
  · simp [execute_command, hv, h]

/-- Explicit instance of `execute_result_fields`: the blocked
dictionary for `"sudo ls"` is identical under two different launch
oracles, and carries empty output. -/
theorem execute_result_fields_witness :
    execute_command defaultPolicy (cs "sudo ls") (fun _ => LaunchOutcome.timedOut)
      = blockedResult ∧
    execute_command defaultPolicy (cs "sudo ls")
      (fun _ => LaunchOutcome.completed 0 (cs "x") []) = blockedResult :=
  ⟨(execute_result_fields defaultPolicy (cs "sudo ls")
      (fun _ => LaunchOutcome.timedOut)).1 (by decide) _,
   (execute_result_fields defaultPolicy (cs "sudo ls")
      (fun _ => LaunchOutcome.timedOut)).1 (by decide) _⟩

/-! ### C7 and C8: wake-word handling and the continuation flag -/

/-- C7 counterexample: with wake word `"jarvis"`, the utterance
`"jarvis jarvis hello"` yields the command body `"hello"` — the code's
`str.replace` deletes every occurrence — whereas removing exactly the
first occurrence and trimming would yield `"jarvis hello"`; moreover
`"Jarvis hello"` contains the wake word case-insensitively yet is
discarded, the containment test being case-sensitive. -/
theorem wake_word_handling_cex :
    (process_command (cs "jarvis") (cs "jarvis jarvis hello")).body = some (cs "hello") ∧
    pyStrip (removeFirstOccurrence (cs "jarvis") (cs "jarvis jarvis hello"))
      = cs "jarvis hello" ∧
    cs "hello" ≠ cs "jarvis hello" ∧
    isInfixB (toLowerList (cs "jarvis")) (toLowerList (cs "Jarvis hello")) = true ∧
    (process_command (cs "jarvis") (cs "Jarvis hello")).dispatched = none := by decide

/-- C7 amended: for a nonempty utterance, a handler is dispatched iff
the wake word occurs as an exact (case-sensitive) substring, and the
command body passed to classification is the utterance with every
occurrence of the wake word deleted and the result trimmed of
whitespace; without the wake word no body is formed. -/
theorem wake_word_handling (wake u : List Char) (h : u ≠ []) :
    ((process_command wake u).dispatched.isSome ↔ isInfixB wake u = true) ∧
    (isInfixB wake u = true →
        (process_command wake u).body = some (pyStrip (pyReplaceAll u wake))) ∧
    (isInfixB wake u = false →
        (process_command wake u).body = none ∧
        (process_command wake u).dispatched = none) := by
  unfold process_command
  simp only [h, if_false]
  cases hw : isInfixB wake u <;> simp [hw]

/-- Explicit instance of `wake_word_handling`: the body formed for
`"jarvis open"` is the wake word's deletion, trimmed. -/
theorem wake_word_handling_witness :
    (process_command (cs "jarvis") (cs "jarvis open")).body
      = some (pyStrip (pyReplaceAll (cs "jarvis open") (cs "jarvis"))) :=
  (wake_word_handling (cs "jarvis") (cs "jarvis open") (by decide)).2.1 (by decide)

/-- C8: the continuation boolean of `process_command` is false exactly
when the dispatched handler is the farewell handler (`handle_goodbye`
alone returns `False`), and an utterance lacking the wake word returns
true with no handler dispatched (hence no response emitted). -/
theorem continuation_flag (wake u : List Char) :
    ((process_command wake u).continue_flag = false ↔
        (process_command wake u).dispatched = some Intent.farewell) ∧
    (isInfixB wake u = false →
        (process_command wake u).continue_flag = true ∧
        (process_command wake u).dispatched = none) := by
  unfold process_command
  by_cases h0 : u = []
  · simp [h0]
  · simp only [h0, if_false]
    cases hw : isInfixB wake u <;> simp [hw]
    cases hi : classify (pyStrip (pyReplaceAll u wake)) <;> simp [handler_returns]

/-- Explicit instance of `continuation_flag`: the wake-word-free
utterance `"what time is it"` is discarded with continuation true. -/
theorem continuation_flag_witness :
    (process_command (cs "jarvis") (cs "what time is it")).continue_flag = true ∧
    (process_command (cs "jarvis") (cs "what time is it")).dispatched = none :=
  (continuation_flag (cs "jarvis") (cs "what time is it")).2 (by decide)

/-! ### C10: sanitization can merge fragments into one token -/

/-- C10: deleting metacharacters inserts no separator, so
`sanitize_input "ls;rm" = "lsrm"` and the first whitespace-delimited
token of the sanitized output differs from the first token of the
original input. -/
theorem sanitize_merges_tokens :
    sanitize_input (cs "ls;rm") = cs "lsrm" ∧
    baseToken (cs "ls;rm") = cs "ls;rm" ∧
    baseToken (sanitize_input (cs "ls;rm")) = cs "lsrm" ∧
    baseToken (sanitize_input (cs "ls;rm")) ≠ baseToken (cs "ls;rm") := by decide
